import Mathlib

/-!
# Verification of the receipt-bot scraping core

A shallow embedding of the platform-dispatch and multi-stage extraction
pipeline of the `python-service` component: URL classification
(`src/utils/url_parser.py`), scraper dispatch (`src/scrapers/factory.py`),
the per-platform pipelines (`src/scrapers/{youtube,tiktok,instagram,web}.py`),
the transcription-provider layer (`src/video/transcriber.py`) and the
gRPC-side platform-code conversion (`src/grpc_server/servicers.py`).

External collaborators (yt-dlp download, ffmpeg audio extraction, the
speech-to-text backends, instaloader, HTTP fetch) are modelled as oracle
environments: each scrape takes a record describing what every external
call would return (success value or exception message), and the embedding
reproduces the control flow of the Python source over those outcomes.
Filesystem effects are modelled as an explicit list of file names in the
working directory.
-/

namespace ReceiptBot

/-! ## String helpers (Python semantics on `List Char`) -/

/-- Python `in` on strings: `sub in l` — does `l` contain `sub` as a
contiguous substring? -/
def containsSub (sub : List Char) : List Char → Bool
  | [] => sub.isPrefixOf []
  | c :: rest => sub.isPrefixOf (c :: rest) || containsSub sub rest

/-- Python `str.lower()` (ASCII-level model). -/
def lowerChars (l : List Char) : List Char := l.map Char.toLower

/-- `marker in url.lower()` for string arguments. -/
def urlContains (url marker : String) : Bool :=
  containsSub marker.data (lowerChars url.data)

/-! ## `src/utils/url_parser.py` -/

/-- The `Platform` enumeration (`IntEnum`, values 0–4). -/
inductive Platform where
  | unknown
  | tiktok
  | youtube
  | instagram
  | web
  deriving DecidableEq, Repr

/-- `detect_platform(url)`: case-insensitive substring tests in a fixed
priority order — tiktok.com, then youtube.com / youtu.be, then
instagram.com, else WEB. -/
def detect_platform (url : String) : Platform :=
  if urlContains url "tiktok.com" then Platform.tiktok
  else if urlContains url "youtube.com" || urlContains url "youtu.be" then Platform.youtube
  else if urlContains url "instagram.com" then Platform.instagram
  else Platform.web

/-! ## `can_handle` predicates of the four scrapers -/

/-- `TikTokScraper.can_handle`: `'tiktok.com' in url.lower()`. -/
def tiktokCanHandle (url : String) : Bool := urlContains url "tiktok.com"

/-- `YouTubeScraper.can_handle`: `'youtube.com' in url_lower or 'youtu.be' in url_lower`. -/
def youtubeCanHandle (url : String) : Bool :=
  urlContains url "youtube.com" || urlContains url "youtu.be"

/-- `InstagramScraper.can_handle`: `'instagram.com' in url.lower()`. -/
def instagramCanHandle (url : String) : Bool := urlContains url "instagram.com"

/-- `WebScraper.can_handle`: always `True` (universal fallback). -/
def webCanHandle (_url : String) : Bool := true

/-- `can_handle` of the scraper registered for a platform.  The factory's
`_scrapers` table registers a scraper for each of tiktok, youtube,
instagram and web; `unknown` has no entry. -/
def scraperCanHandle : Platform → String → Bool
  | Platform.tiktok, url => tiktokCanHandle url
  | Platform.youtube, url => youtubeCanHandle url
  | Platform.instagram, url => instagramCanHandle url
  | Platform.web, url => webCanHandle url
  | Platform.unknown, _ => false

/-- Does the factory's `_scrapers` dict have an entry for this platform? -/
def registered : Platform → Bool
  | Platform.unknown => false
  | _ => true

/-! ## `src/scrapers/factory.py` — `ScraperFactory.get_scraper`

The factory returns a scraper object; we identify each scraper by the
platform tag it is registered under, so `get_scraper` returns the tag of
the selected pipeline (`Platform.web` denotes the generic-web scraper). -/

/-- `ScraperFactory.get_scraper(url, platform)`. -/
def get_scraper (url : String) (platform : Option Platform) : Platform :=
  -- Detect platform if not provided
  let platform :=
    match platform with
    | none => detect_platform url
    | some p => if p = Platform.unknown then detect_platform url else p
  -- Get the specific scraper or fall back to web scraper
  if ¬ registered platform || platform = Platform.web then Platform.web
  -- Verify the scraper can handle this URL
  else if ¬ scraperCanHandle platform url then Platform.web
  else platform

/-! ## `src/grpc_server/servicers.py` — `ScraperServicer._convert_platform` -/

/-- `_convert_platform(proto_platform)`: `mapping.get(n, PLATFORM_UNKNOWN)`
for the proto integer code. -/
def convert_platform (protoPlatform : Int) : Platform :=
  if protoPlatform = 0 then Platform.unknown
  else if protoPlatform = 1 then Platform.tiktok
  else if protoPlatform = 2 then Platform.youtube
  else if protoPlatform = 3 then Platform.instagram
  else if protoPlatform = 4 then Platform.web
  else Platform.unknown

/-! ## More Python string primitives -/

/-- Python whitespace for `str.strip()` (the ASCII whitespace classes). -/
def isPySpace (c : Char) : Bool :=
  c = ' ' || c = '\t' || c = '\n' || c = '\r' || c = '\x0b' || c = '\x0c'

/-- Python `str.strip()` on a character list. -/
def pyStrip (l : List Char) : List Char :=
  ((l.dropWhile isPySpace).reverse.dropWhile isPySpace).reverse

/-- Python `str.strip()` on strings. -/
def pyStripStr (s : String) : String := String.mk (pyStrip s.data)

/-- Python `str.splitlines()` (newline-separated model): no trailing empty
piece for a terminal newline, and `"".splitlines() == []`. -/
def pySplitlines : List Char → List (List Char)
  | [] => []
  | c :: rest =>
    if c = '\n' then [] :: pySplitlines rest
    else
      match pySplitlines rest with
      | [] => [[c]]
      | line :: more => (c :: line) :: more

/-- Python `str.rstrip('/')`. -/
def pyRstripSlash (l : List Char) : List Char :=
  (l.reverse.dropWhile (fun c => c = '/')).reverse

/-- Python `str.split('/')`: `"".split('/') == ['']`, adjacent separators
produce empty pieces. -/
def pySplitSlash : List Char → List (List Char)
  | [] => [[]]
  | c :: rest =>
    if c = '/' then [] :: pySplitSlash rest
    else
      match pySplitSlash rest with
      | [] => [[c]]
      | piece :: more => (c :: piece) :: more

/-- Python `'\n'.join` on character-list lines. -/
def joinNl : List (List Char) → List Char
  | [] => []
  | [l] => l
  | l :: l2 :: rest => l ++ '\n' :: joinNl (l2 :: rest)

/-- Python `'\n'.join` on strings. -/
def joinNlStr : List String → String
  | [] => ""
  | [s] => s
  | s :: s2 :: rest => s ++ "\n" ++ joinNlStr (s2 :: rest)

/-- Python `s[:n]` (slice of the first `n` characters). -/
def takeStr (n : Nat) (s : String) : String := String.mk (s.data.take n)

/-- Python `str.startswith` / name-prefix test used for the shortcode glob. -/
def isPrefixOfStr (p s : String) : Bool := p.data.isPrefixOf s.data

/-- Python `str.endswith` (the `*.mp4` part of the glob pattern). -/
def endsWithStr (suffix s : String) : Bool := suffix.data.reverse.isPrefixOf s.data.reverse

/-- `pathlib.Path.with_suffix('.mp3')`: drop the extension after the last
dot of the final path component (if any), then append `.mp3`.  This is the
audio path `AudioExtractor.extract_audio` derives from a video path. -/
def withSuffixMp3 (p : String) : String :=
  let rev := p.data.reverse
  let core :=
    if (rev.takeWhile (fun c => c ≠ '/')).contains '.' then
      ((rev.dropWhile (fun c => c ≠ '.')).drop 1).reverse
    else p.data
  String.mk (core ++ ".mp3".data)

/-! ## The `ScrapeResult` record (`src/scrapers/base.py`)

`metadata` is a Python `dict`; its values are strings in the video
pipelines but raw JSON values in the recipe path of the web scraper, so we
model values as `JValue`.  `transcript` is declared `Optional[str]` in the
dataclass but every pipeline stores a `str`. -/

/-- A parsed JSON value (the payload of a JSON-LD script tag). -/
inductive JValue where
  | str : String → JValue
  | num : Int → JValue
  | bool : Bool → JValue
  | null : JValue
  | arr : List JValue → JValue
  | obj : List (String × JValue) → JValue
  deriving Repr

/-- The result record every pipeline returns. -/
structure ScrapeResult where
  captions : String
  description : String
  transcript : String
  original_url : String
  metadata : List (String × JValue)
  error : Option String := none
  deriving Repr

/-- The all-empty failure record a Tier-1 failure produces. -/
def failureResult (url e : String) : ScrapeResult :=
  { captions := "", description := "", transcript := "", original_url := url
    metadata := [], error := some e }

/-! ## Filesystem model and `src/utils/cleanup.py`

The working directory is a list of file names; deleting is filtering. -/

/-- Delete one file name from the directory (no-op when absent, matching
`if path.exists(): path.unlink()`). -/
def deleteFile (s : List String) (f : String) : List String :=
  s.filter (fun g => g ≠ f)

/-- `cleanup_files(*paths)`: skip falsy paths (`None` or `""`), delete the
rest. -/
def cleanup_files (s : List String) (paths : List (Option String)) : List String :=
  paths.foldl
    (fun st p =>
      match p with
      | none => st
      | some f => if f = "" then st else deleteFile st f)
    s

/-- Did this collaborator call raise? -/
def isError {α : Type} : Except String α → Bool
  | Except.error _ => true
  | Except.ok _ => false

/-! ## Python views of JSON values -/

/-- `dict.get(k)` on a parsed JSON object (first-match lookup; keys of a
parsed JSON object are distinct). -/
def jLookup (fs : List (String × JValue)) (k : String) : Option JValue :=
  match fs with
  | [] => none
  | (k1, v) :: rest => if k1 = k then some v else jLookup rest k

/-- Python truthiness of a parsed JSON value. -/
def jTruthy : JValue → Bool
  | JValue.str s => s ≠ ""
  | JValue.num n => n ≠ 0
  | JValue.bool b => b
  | JValue.null => false
  | JValue.arr xs => ¬ xs.isEmpty
  | JValue.obj fs => ¬ fs.isEmpty

/-- The single-quote character, as a string (Python `repr` quotes). -/
def sq : String := String.singleton (Char.ofNat 39)

mutual

/-- Python `repr` of a parsed JSON value (as it appears inside `str` of a
container). -/
def pyRepr : JValue → String
  | JValue.str s => sq ++ s ++ sq
  | JValue.num n => toString n
  | JValue.bool b => if b then "True" else "False"
  | JValue.null => "None"
  | JValue.arr xs => "[" ++ pyReprList xs ++ "]"
  | JValue.obj fs => "\x7b" ++ pyReprFields fs ++ "\x7d"

/-- `repr` of list elements, comma-separated. -/
def pyReprList : List JValue → String
  | [] => ""
  | [v] => pyRepr v
  | v :: w :: rest => pyRepr v ++ ", " ++ pyReprList (w :: rest)

/-- `repr` of dict entries, comma-separated. -/
def pyReprFields : List (String × JValue) → String
  | [] => ""
  | [(k, v)] => sq ++ k ++ sq ++ ": " ++ pyRepr v
  | (k, v) :: f :: rest => sq ++ k ++ sq ++ ": " ++ pyRepr v ++ ", " ++ pyReprFields (f :: rest)

end

/-- Python `str()` of a parsed JSON value. -/
def pyStr : JValue → String
  | JValue.str s => s
  | v => pyRepr v

/-! ## `src/scrapers/web.py` — structured recipe extraction -/

/-- Exceptions of the per-script recipe parse: `caught` stands for the
`AttributeError`/`KeyError` the `except` clause handles; `typeError` is
raised by `'\n'.join` on a non-string part and is *not* handled there. -/
inductive PyExc where
  | caught : PyExc
  | typeError : String → PyExc

/-- `d.get(k)` on an arbitrary value: `AttributeError` unless `d` is a
dict. -/
def jGet (v : JValue) (k : String) : Except PyExc (Option JValue) :=
  match v with
  | JValue.obj fs => Except.ok (jLookup fs k)
  | _ => Except.error PyExc.caught

/-- `d.get('@type') == 'Recipe'` (string comparison). -/
def isRecipeTag : Option JValue → Bool
  | some (JValue.str s) => s = "Recipe"
  | _ => false

/-- `next((d for d in data if d.get('@type') == 'Recipe'), None)`:
evaluated element by element, raising on a non-dict element. -/
def findRecipe : List JValue → Except PyExc (Option JValue)
  | [] => Except.ok none
  | d :: rest => do
    let t ← jGet d "@type"
    if isRecipeTag t then pure (some d) else findRecipe rest

/-- One numbered instruction line: `f"{i}. {text}"` where `text` is
`instruction.get('text', str(instruction))` for dict instructions and
`str(instruction)` otherwise. -/
def instructionText (inst : JValue) : String :=
  match inst with
  | JValue.obj fs => pyStr ((jLookup fs "text").getD (JValue.obj fs))
  | v => pyStr v

/-- `enumerate(instructions, 1)` over the instruction list. -/
def numberInstructions (i : Nat) : List JValue → List String
  | [] => []
  | inst :: rest => (toString i ++ ". " ++ instructionText inst) :: numberInstructions (i + 1) rest

/-- The `description_parts` list built from `recipeIngredient` and
`recipeInstructions` (headers and blank separator are strings; ingredient
entries are appended as the raw JSON values they are). -/
def buildDescriptionParts (ingredients instructions : JValue) : List JValue :=
  (if jTruthy ingredients then
    [JValue.str "INGREDIENTS:"] ++
      (match ingredients with
       | JValue.arr xs => xs
       | _ => []) ++
      [JValue.str ""]
   else []) ++
  (if jTruthy instructions then
    [JValue.str "INSTRUCTIONS:"] ++
      (match instructions with
       | JValue.arr xs => (numberInstructions 1 xs).map JValue.str
       | v => [JValue.str (pyStr v)])
   else [])

/-- `'\n'.join(parts)`: raises `TypeError` on a non-string part. -/
def pyJoinNl : List JValue → Except PyExc String
  | [] => Except.ok ""
  | [v] =>
    match v with
    | JValue.str s => Except.ok s
    | _ => Except.error (PyExc.typeError "sequence item: expected str instance")
  | v :: w :: rest =>
    match v with
    | JValue.str s => do
      let r ← pyJoinNl (w :: rest)
      Except.ok (s ++ "\n" ++ r)
    | _ => Except.error (PyExc.typeError "sequence item: expected str instance")

/-- The dictionary `_extract_recipe_schema` returns on a match. -/
structure RecipeData where
  title : JValue
  description : String
  author : JValue
  prep_time : JValue
  cook_time : JValue
  servings : String
  deriving Repr

/-- The recipe dictionary, as the metadata mapping of the result. -/
def RecipeData.toMetadata (r : RecipeData) : List (String × JValue) :=
  [("title", r.title), ("description", JValue.str r.description),
   ("author", r.author), ("prep_time", r.prep_time),
   ("cook_time", r.cook_time), ("servings", JValue.str r.servings)]

/-- Build the recipe dictionary from a dict that declared type Recipe. -/
def buildRecipe (fs : List (String × JValue)) : Except PyExc (Option RecipeData) := do
  let ingredients := (jLookup fs "recipeIngredient").getD (JValue.arr [])
  let instructions := (jLookup fs "recipeInstructions").getD (JValue.arr [])
  let description ← pyJoinNl (buildDescriptionParts ingredients instructions)
  let author :=
    match jLookup fs "author" with
    | some (JValue.obj afs) => (jLookup afs "name").getD (JValue.str "")
    | some v => v
    | none => JValue.str ""
  pure (some
    { title := (jLookup fs "name").getD (JValue.str "")
      description := description
      author := author
      prep_time := (jLookup fs "prepTime").getD (JValue.str "")
      cook_time := (jLookup fs "cookTime").getD (JValue.str "")
      servings := pyStr ((jLookup fs "recipeYield").getD (JValue.str "")) })

/-- Process one parsed JSON-LD payload: select the first Recipe-typed
element of an array payload, check truthiness and the declared type, then
build the recipe dictionary. -/
def processScript (data : JValue) : Except PyExc (Option RecipeData) := do
  let d ←
    match data with
    | JValue.arr xs => findRecipe xs
    | v => pure (some v)
  match d with
  | none => pure none
  | some v =>
    if jTruthy v then
      match v with
      | JValue.obj fs =>
        if isRecipeTag (jLookup fs "@type") then buildRecipe fs
        else pure none
      | _ => Except.error PyExc.caught
    else pure none

/-- `_extract_recipe_schema`: walk the JSON-LD script payloads (`none`
stands for a `json.JSONDecodeError`); a caught per-block failure or a
non-recipe block moves on to the next block; an uncaught `TypeError`
escapes to the scrape boundary as an error message. -/
def extract_recipe_schema : List (Option JValue) → Except String (Option RecipeData)
  | [] => Except.ok none
  | sc :: rest =>
    match sc with
    | none => extract_recipe_schema rest
    | some data =>
      match processScript data with
      | Except.error PyExc.caught => extract_recipe_schema rest
      | Except.error (PyExc.typeError m) => Except.error m
      | Except.ok none => extract_recipe_schema rest
      | Except.ok (some r) => Except.ok (some r)

/-- A JSON-LD payload declaring type Recipe with the given ingredient
strings and instruction values. -/
def recipeScriptObj (ings : List String) (insts : List JValue) : JValue :=
  JValue.obj [("@type", JValue.str "Recipe"),
              ("recipeIngredient", JValue.arr (ings.map JValue.str)),
              ("recipeInstructions", JValue.arr insts)]

/-! ## `src/scrapers/web.py` — whole-page text extraction -/

mutual

/-- A node of the parsed HTML document. -/
inductive HNode where
  | elem : String → HForest → HNode
  | text : String → HNode

/-- A sequence of sibling nodes. -/
inductive HForest where
  | nil : HForest
  | cons : HNode → HForest → HForest

end

mutual

/-- `element.decompose()` applied inside one node: the node is already
known to be kept, its descendants are pruned. -/
def stripNode : HNode → HNode
  | HNode.text s => HNode.text s
  | HNode.elem tag children => HNode.elem tag (stripTags children)

/-- `for element in soup(['script','style','nav','footer','header']):
element.decompose()` — remove those subtrees wholesale. -/
def stripTags : HForest → HForest
  | HForest.nil => HForest.nil
  | HForest.cons (HNode.text s) rest => HForest.cons (HNode.text s) (stripTags rest)
  | HForest.cons (HNode.elem tag children) rest =>
    if tag = "script" || tag = "style" || tag = "nav" || tag = "footer" || tag = "header" then
      stripTags rest
    else
      HForest.cons (stripNode (HNode.elem tag children)) (stripTags rest)

end

mutual

/-- The text-node strings below one node, in document order. -/
def nodeTexts : HNode → List String
  | HNode.text s => [s]
  | HNode.elem _ children => collectTexts children

/-- The document's text-node strings, in document order. -/
def collectTexts : HForest → List String
  | HForest.nil => []
  | HForest.cons n rest => nodeTexts n ++ collectTexts rest

end

/-- `soup.get_text(separator='\n')` after tag removal. -/
def getText (doc : HForest) : String := joinNlStr (collectTexts doc)

/-- The stripped, non-blank lines of the pruned page text. -/
def cleanedLines (doc : HForest) : List (List Char) :=
  (((pySplitlines (getText (stripTags doc)).data).map pyStrip).filter
    (fun l => ¬ l.isEmpty))

/-- `_extract_text_content`: remove script/style/nav/footer/header, split
the remaining text into lines, strip each line, drop blanks, rejoin with
newlines. -/
def extract_text_content (doc : HForest) : String :=
  String.mk (joinNl (cleanedLines doc))

/-- The spec's example page: a body containing the text
`"  Hello \n\n World  "` next to a script element. -/
def exampleDoc : HForest :=
  HForest.cons
    (HNode.elem "body" (HForest.cons (HNode.text "  Hello \n\n World  ") HForest.nil))
    (HForest.cons
      (HNode.elem "script" (HForest.cons (HNode.text "var x = 1") HForest.nil))
      HForest.nil)

/-! ## `src/scrapers/web.py` — `WebScraper.scrape` -/

/-- The parsed page the HTTP fetch + BeautifulSoup collaborator yields:
`soup.title` (and its `.string`, which can itself be `None`), the JSON-LD
script payloads, and the DOM used for text extraction. -/
structure Page where
  titleTag : Option (Option String)
  ldScripts : List (Option JValue)
  doc : HForest

/-- External collaborator outcomes for one web scrape. -/
structure WebEnv where
  fetchPage : Except String Page

/-- `soup.title.string if soup.title else ''` as a metadata value. -/
def webTitleValue : Option (Option String) → JValue
  | none => JValue.str ""
  | some none => JValue.null
  | some (some s) => JValue.str s

/-- `WebScraper.scrape`. -/
def webScrape (env : WebEnv) (url : String) (_transcribe : Bool) : ScrapeResult :=
  match env.fetchPage with
  | Except.error e => failureResult url e
  | Except.ok page =>
    match extract_recipe_schema page.ldScripts with
    | Except.error e => failureResult url e
    | Except.ok (some r) =>
      { captions := r.description, description := r.description, transcript := ""
        original_url := url, metadata := r.toMetadata, error := none }
    | Except.ok none =>
      let text := extract_text_content page.doc
      { captions := text, description := text, transcript := ""
        original_url := url, metadata := [("title", webTitleValue page.titleTag)]
        error := none }

/-! ## `src/scrapers/{youtube,tiktok}.py` — the video pipelines

Each scrape is run against an oracle environment describing what the
external collaborators (yt-dlp, ffmpeg, the STT backend) would do, and an
explicit working-directory state; it returns the `ScrapeResult` and the
final directory state. -/

/-- The dictionary `VideoDownloader.download` returns. -/
structure DownloadResult where
  video_path : String
  title : String
  description : String
  author : String
  duration : Int
  deriving Repr

/-- Collaborator outcomes for one video-pipeline scrape: the download, the
audio extraction (which on success creates the `.mp3` next to the video)
and the transcription. `Except.error e` is an exception with message `e`. -/
structure VideoEnv where
  download : Except String DownloadResult
  extractAudio : Except String Unit
  transcribeResult : Except String String

/-- The metadata dict of the YouTube/TikTok pipelines. -/
def videoMetadata (d : DownloadResult) : List (String × JValue) :=
  [("title", JValue.str d.title), ("author", JValue.str d.author),
   ("duration", JValue.str (toString d.duration))]

/-- `TikTokScraper.scrape`: download (Tier 1), then optionally extract
audio and transcribe inside the inner `try` (Tier 2), and in `finally`
delete the video and audio files. -/
def tiktokScrape (env : VideoEnv) (url : String) (transcribe : Bool) (s0 : List String) :
    ScrapeResult × List String :=
  match env.download with
  | Except.error e => (failureResult url e, s0)
  | Except.ok d =>
    let s1 := s0 ++ [d.video_path]
    let step :=
      if transcribe then
        match env.extractAudio with
        | Except.error _ => ("", none, s1)
        | Except.ok _ =>
          let ap := withSuffixMp3 d.video_path
          match env.transcribeResult with
          | Except.error _ => ("", some ap, s1 ++ [ap])
          | Except.ok t => (t, some ap, s1 ++ [ap])
      else ("", none, s1)
    let result : ScrapeResult :=
      { captions := d.description, description := d.description
        transcript := step.1, original_url := url
        metadata := videoMetadata d, error := none }
    (result, cleanup_files step.2.2 [some d.video_path, step.2.1])

/-- `YouTubeScraper.scrape` (same pipeline shape as TikTok). -/
def youtubeScrape (env : VideoEnv) (url : String) (transcribe : Bool) (s0 : List String) :
    ScrapeResult × List String :=
  match env.download with
  | Except.error e => (failureResult url e, s0)
  | Except.ok d =>
    let s1 := s0 ++ [d.video_path]
    let step :=
      if transcribe then
        match env.extractAudio with
        | Except.error _ => ("", none, s1)
        | Except.ok _ =>
          let ap := withSuffixMp3 d.video_path
          match env.transcribeResult with
          | Except.error _ => ("", some ap, s1 ++ [ap])
          | Except.ok t => (t, some ap, s1 ++ [ap])
      else ("", none, s1)
    let result : ScrapeResult :=
      { captions := d.description, description := d.description
        transcript := step.1, original_url := url
        metadata := videoMetadata d, error := none }
    (result, cleanup_files step.2.2 [some d.video_path, step.2.1])

/-! ## `src/scrapers/instagram.py` -/

/-- `InstagramScraper._extract_shortcode`: split the `/`-stripped URL on
`/`; if a `p` or `reel` part exists, return the part after the first such
occurrence (preferring `p`), else the empty string. -/
def extract_shortcode (url : String) : String :=
  let parts := (pySplitSlash (pyRstripSlash url.data)).map (fun l => String.mk l)
  if parts.contains "p" || parts.contains "reel" then
    let idx := if parts.contains "p" then parts.indexOf "p" else parts.indexOf "reel"
    if idx + 1 < parts.length then parts.getD (idx + 1) "" else ""
  else ""

/-- The post record `instaloader.Post.from_shortcode` yields. -/
structure PostInfo where
  caption : Option String
  owner_username : String
  likes : Int
  is_video : Bool
  deriving Repr

/-- Collaborator outcomes for one Instagram scrape.  `downloadPost`
succeeds with the name suffixes of the files it creates (instaloader's
`filename_pattern='{shortcode}'` makes every created name start with the
shortcode). -/
structure InstaEnv where
  fetchPost : Except String PostInfo
  downloadPost : Except String (List String)
  extractAudio : Except String Unit
  transcribeResult : Except String String

/-- The metadata dict of the Instagram pipeline. -/
def instaMetadata (post : PostInfo) : List (String × JValue) :=
  let captions := post.caption.getD ""
  [("title", JValue.str (if captions ≠ "" then takeStr 100 captions else "Instagram Post")),
   ("author", JValue.str post.owner_username),
   ("likes", JValue.str (toString post.likes))]

/-- Delete every file whose name starts with the shortcode (the `finally`
glob sweep, run only when `video_path` was set). -/
def sweepShortcode (shortcode : String) (s : List String) : List String :=
  s.filter (fun f => ¬ isPrefixOfStr shortcode f)

/-- `InstagramScraper.scrape`: resolve the shortcode (Tier 1), fetch the
post (Tier 1), then — for video posts — download, locate the `.mp4`,
extract audio and transcribe inside the inner `try` (Tier 2); the
`finally` block deletes the video/audio paths and, when a video path was
set, every shortcode-prefixed file. -/
def instaScrape (env : InstaEnv) (url : String) (transcribe : Bool) (s0 : List String) :
    ScrapeResult × List String :=
  let shortcode := extract_shortcode url
  if shortcode = "" then
    -- `raise ValueError(...)` lands in the outer `except`; `video_path`
    -- is still None, so `finally` deletes nothing
    (failureResult url "Could not extract shortcode from URL", s0)
  else
    match env.fetchPost with
    | Except.error e => (failureResult url e, s0)
    | Except.ok post =>
      let captions := post.caption.getD ""
      let success (transcript : String) : ScrapeResult :=
        { captions := captions, description := captions, transcript := transcript
          original_url := url, metadata := instaMetadata post, error := none }
      if post.is_video then
        let videoPath0 := shortcode ++ ".mp4"
        match env.downloadPost with
        | Except.error _ =>
          -- `download_post` raised inside the inner `try`; transcript
          -- stays empty; `video_path` was already set to videoPath0
          (success "", sweepShortcode shortcode (cleanup_files s0 [some videoPath0, none]))
        | Except.ok suffixes =>
          let s1 := s0 ++ suffixes.map (fun suf => shortcode ++ suf)
          let globbed := s1.filter
            (fun f => isPrefixOfStr shortcode f && endsWithStr ".mp4" f)
          match globbed with
          | [] =>
            -- no `.mp4` found: the transcription branch is skipped
            (success "", sweepShortcode shortcode (cleanup_files s1 [some videoPath0, none]))
          | vp :: _ =>
            let step :=
              if transcribe then
                match env.extractAudio with
                | Except.error _ => ("", none, s1)
                | Except.ok _ =>
                  let ap := withSuffixMp3 vp
                  match env.transcribeResult with
                  | Except.error _ => ("", some ap, s1 ++ [ap])
                  | Except.ok t => (t, some ap, s1 ++ [ap])
              else ("", none, s1)
            (success step.1,
             sweepShortcode shortcode (cleanup_files step.2.2 [some vp, step.2.1]))
      else
        -- not a video: no download, `video_path` stays None, `finally`
        -- deletes nothing
        (success "", s0)

/-! ## `src/video/transcriber.py` — the provider abstraction -/

/-- The three interchangeable transcription backends. -/
inductive TranscriptionProvider where
  | elevenlabs
  | googleStt
  | whisper
  deriving DecidableEq, Repr

/-- The common-code → ElevenLabs translation table of
`_convert_to_elevenlabs_language`. -/
def elevenlabs_language_map : List (String × String) :=
  [("en", "eng"), ("en-US", "eng"), ("en-GB", "eng"),
   ("es", "spa"), ("es-ES", "spa"), ("es-MX", "spa"),
   ("pt", "por"), ("pt-BR", "por"), ("pt-PT", "por"),
   ("fr", "fra"), ("fr-FR", "fra"),
   ("de", "deu"), ("de-DE", "deu"),
   ("it", "ita"), ("it-IT", "ita"),
   ("ja", "jpn"), ("ja-JP", "jpn"),
   ("ko", "kor"), ("ko-KR", "kor"),
   ("zh", "cmn"), ("zh-CN", "cmn"), ("zh-TW", "cmn")]

/-- `dict.get(k, default)` on the translation table. -/
def lookupD (m : List (String × String)) (k d : String) : String :=
  match m with
  | [] => d
  | (k1, v) :: rest => if k1 = k then v else lookupD rest k d

/-- `Transcriber._convert_to_elevenlabs_language`: a falsy or blank hint
becomes `None` (auto-detect); otherwise translate through the table,
defaulting to the hint itself. -/
def convert_to_elevenlabs_language (language : Option String) : Option String :=
  match language with
  | none => none
  | some l =>
    if l = "" || pyStripStr l = "" then none
    else some (lookupD elevenlabs_language_map l l)

/-- The language value `Transcriber.transcribe` hands to the selected
backend: the ElevenLabs conversion, `language or "en-US"` for Google STT,
and the raw hint for Whisper. -/
def effectiveLanguage (p : TranscriptionProvider) (language : Option String) :
    Option String :=
  match p with
  | TranscriptionProvider.elevenlabs => convert_to_elevenlabs_language language
  | TranscriptionProvider.googleStt =>
    some (match language with
          | none => "en-US"
          | some l => if l = "" then "en-US" else l)
  | TranscriptionProvider.whisper => language

/-- The language constraint the backend call actually carries
(`none` = auto-detect): ElevenLabs passes `language_code` only when it is
truthy and non-blank; Google STT always sets `config.language_code`;
local Whisper sets `options['language']` only when the hint is truthy
(the API variant sends no language at all). -/
def backendLanguageParam (p : TranscriptionProvider) (language : Option String) :
    Option String :=
  match p with
  | TranscriptionProvider.elevenlabs =>
    match effectiveLanguage p language with
    | none => none
    | some l => if l = "" || pyStripStr l = "" then none else some l
  | TranscriptionProvider.googleStt => effectiveLanguage p language
  | TranscriptionProvider.whisper =>
    match language with
    | none => none
    | some l => if l = "" then none else some l

/-! ## Theorems: classifier, dispatcher, platform-code conversion -/

/-- C4: `detect_platform` is a total, deterministic function on strings:
if the lowercased URL contains `tiktok.com` it returns the TikTok platform;
otherwise, if it contains `youtube.com` or `youtu.be`, YouTube; otherwise,
if it contains `instagram.com`, Instagram; otherwise WEB — in exactly that
priority order. -/
theorem detect_platform_spec (url : String) :
    (urlContains url "tiktok.com" = true → detect_platform url = Platform.tiktok) ∧
    (urlContains url "tiktok.com" = false →
      (urlContains url "youtube.com" = true ∨ urlContains url "youtu.be" = true) →
      detect_platform url = Platform.youtube) ∧
    (urlContains url "tiktok.com" = false → urlContains url "youtube.com" = false →
      urlContains url "youtu.be" = false → urlContains url "instagram.com" = true →
      detect_platform url = Platform.instagram) ∧
    (urlContains url "tiktok.com" = false → urlContains url "youtube.com" = false →
      urlContains url "youtu.be" = false → urlContains url "instagram.com" = false →
      detect_platform url = Platform.web) := by
  unfold detect_platform
  refine ⟨fun h => ?_, fun h1 h2 => ?_, fun h1 h2 h3 h4 => ?_, fun h1 h2 h3 h4 => ?_⟩ <;>
    simp_all

/-- Witness for C4 at a concrete, mixed-case URL. -/
theorem detect_platform_spec_witness :
    detect_platform "https://www.TikTok.com/@cook/video/7" = Platform.tiktok :=
  (detect_platform_spec "https://www.TikTok.com/@cook/video/7").1 (by decide)

/-- C2: dispatch always returns a pipeline; the returned pipeline is the
generic-web pipeline or one whose `can_handle url` is true; if a hinted
platform's pipeline declines the URL, dispatch returns the web pipeline;
and the web pipeline accepts every URL. -/
theorem get_scraper_spec (url : String) (hint : Option Platform) :
    (get_scraper url hint = Platform.web ∨
      scraperCanHandle (get_scraper url hint) url = true) ∧
    (∀ p, hint = some p → p ≠ Platform.unknown →
      scraperCanHandle p url = false → get_scraper url hint = Platform.web) ∧
    webCanHandle url = true := by
  refine ⟨?_, ?_, rfl⟩
  · unfold get_scraper
    rcases hint with _ | p
    · dsimp only
      split_ifs with h1 h2 <;> simp_all
    · dsimp only
      split_ifs with h0 h1 h2 h1 h2 <;> simp_all
  · rintro p rfl hp hch
    unfold get_scraper
    dsimp only
    rw [if_neg hp]
    rcases p with _ | _ | _ | _ | _ <;> simp_all [registered, scraperCanHandle]

/-- Witness for C2: a social-post hint on a long-video URL falls back to
the generic-web pipeline. -/
theorem get_scraper_spec_witness :
    get_scraper "https://youtu.be/dQw4" (some Platform.instagram) = Platform.web :=
  (get_scraper_spec "https://youtu.be/dQw4" (some Platform.instagram)).2.1
    Platform.instagram rfl (by decide) (by decide)

/-- C10: every numeric platform-hint code outside 0–4 converts to the
UNKNOWN platform, and dispatching with such a hint behaves exactly like
dispatching with no hint at all. -/
theorem convert_platform_out_of_range (n : Int) (url : String) (h : n < 0 ∨ 4 < n) :
    convert_platform n = Platform.unknown ∧
    get_scraper url (some (convert_platform n)) = get_scraper url none := by
  have hc : convert_platform n = Platform.unknown := by
    unfold convert_platform
    split_ifs <;> first | rfl | omega
  refine ⟨hc, ?_⟩
  rw [hc]
  unfold get_scraper
  rfl

/-- Witness for C10 at code 7. -/
theorem convert_platform_out_of_range_witness :
    convert_platform 7 = Platform.unknown ∧
    get_scraper "https://example.com/r" (some (convert_platform 7)) =
      get_scraper "https://example.com/r" none :=
  convert_platform_out_of_range 7 "https://example.com/r" (by decide)

/-! ## Theorems: failure tiers of the pipelines -/

/-- C3: on a Tier-1 failure — download/fetch of the primary content fails,
or the social-post pipeline cannot resolve a shortcode — every pipeline
returns the all-empty result with `error` set to the (non-empty) failure
description and `original_url` echoing the input. -/
theorem tier1_failure (env : VideoEnv) (ienv : InstaEnv) (wenv : WebEnv)
    (url m : String) (t : Bool) (s0 : List String) (hm : m ≠ "") :
    (env.download = Except.error m → (tiktokScrape env url t s0).1 = failureResult url m) ∧
    (env.download = Except.error m → (youtubeScrape env url t s0).1 = failureResult url m) ∧
    (ienv.fetchPost = Except.error m → extract_shortcode url ≠ "" →
      (instaScrape ienv url t s0).1 = failureResult url m) ∧
    (extract_shortcode url = "" →
      (instaScrape ienv url t s0).1 =
        failureResult url "Could not extract shortcode from URL") ∧
    (wenv.fetchPage = Except.error m → webScrape wenv url t = failureResult url m) ∧
    (failureResult url m =
      { captions := "", description := "", transcript := "", original_url := url
        metadata := [], error := some m } ∧
      ∀ e, (failureResult url m).error = some e → e ≠ "") := by
  refine ⟨?_, ?_, ?_, ?_, ?_, rfl, ?_⟩
  · intro hd; simp [tiktokScrape, hd]
  · intro hd; simp [youtubeScrape, hd]
  · intro hp hsc; simp [instaScrape, hsc, hp]
  · intro hsc; simp [instaScrape, hsc]
  · intro hf; simp [webScrape, hf]
  · intro e he
    simp [failureResult] at he
    exact he ▸ hm

/-- Witness for C3: a failing download on the TikTok pipeline and a
hopeless Instagram URL, at concrete inputs. -/
theorem tier1_failure_witness :
    (tiktokScrape ⟨Except.error "download failed", Except.ok (), Except.ok "t"⟩
        "https://www.tiktok.com/@a/video/1" true []).1 =
      failureResult "https://www.tiktok.com/@a/video/1" "download failed" ∧
    (instaScrape ⟨Except.ok ⟨some "c", "u", 1, false⟩, Except.ok [], Except.ok (), Except.ok "t"⟩
        "https://www.instagram.com/about" true []).1 =
      failureResult "https://www.instagram.com/about"
        "Could not extract shortcode from URL" := by
  have h := tier1_failure
    ⟨Except.error "download failed", Except.ok (), Except.ok "t"⟩
    ⟨Except.ok ⟨some "c", "u", 1, false⟩, Except.ok [], Except.ok (), Except.ok "t"⟩
    ⟨Except.ok ⟨none, [], HForest.nil⟩⟩
    "https://www.tiktok.com/@a/video/1" "download failed" true [] (by decide)
  have h2 := tier1_failure
    ⟨Except.error "download failed", Except.ok (), Except.ok "t"⟩
    ⟨Except.ok ⟨some "c", "u", 1, false⟩, Except.ok [], Except.ok (), Except.ok "t"⟩
    ⟨Except.ok ⟨none, [], HForest.nil⟩⟩
    "https://www.instagram.com/about" "download failed" true [] (by decide)
  exact ⟨h.1 rfl, h2.2.2.2.1 (by decide)⟩

/-- C1: a Tier-2 failure — audio extraction or transcription raising while
`transcribe` was requested — leaves each video-capable pipeline returning a
*successful* result: captions/description/metadata populated from the
fetched content, `transcript` empty, `error` absent. -/
theorem tier2_graceful (env : VideoEnv) (ienv : InstaEnv) (url : String)
    (d : DownloadResult) (post : PostInfo) (s0 : List String) :
    (env.download = Except.ok d →
      (isError env.extractAudio = true ∨ isError env.transcribeResult = true) →
      (tiktokScrape env url true s0).1 =
        { captions := d.description, description := d.description, transcript := ""
          original_url := url, metadata := videoMetadata d, error := none }) ∧
    (env.download = Except.ok d →
      (isError env.extractAudio = true ∨ isError env.transcribeResult = true) →
      (youtubeScrape env url true s0).1 =
        { captions := d.description, description := d.description, transcript := ""
          original_url := url, metadata := videoMetadata d, error := none }) ∧
    (ienv.fetchPost = Except.ok post → extract_shortcode url ≠ "" →
      post.is_video = true →
      (isError ienv.extractAudio = true ∨ isError ienv.transcribeResult = true) →
      (instaScrape ienv url true s0).1 =
        { captions := post.caption.getD "", description := post.caption.getD ""
          transcript := "", original_url := url, metadata := instaMetadata post
          error := none }) := by
  refine ⟨?_, ?_, ?_⟩
  · intro hd hfail
    cases hea : env.extractAudio with
    | error e => simp [tiktokScrape, hd, hea]
    | ok u =>
      cases htr : env.transcribeResult with
      | error e => simp [tiktokScrape, hd, hea, htr]
      | ok tr =>
        exfalso
        rcases hfail with h | h <;> simp [isError, hea, htr] at h
  · intro hd hfail
    cases hea : env.extractAudio with
    | error e => simp [youtubeScrape, hd, hea]
    | ok u =>
      cases htr : env.transcribeResult with
      | error e => simp [youtubeScrape, hd, hea, htr]
      | ok tr =>
        exfalso
        rcases hfail with h | h <;> simp [isError, hea, htr] at h
  · intro hp hsc hv hfail
    cases hdl : ienv.downloadPost with
    | error e => simp [instaScrape, hsc, hp, hv, hdl]
    | ok suffixes =>
      cases hg : (s0 ++ suffixes.map (fun suf => extract_shortcode url ++ suf)).filter
          (fun f => isPrefixOfStr (extract_shortcode url) f && endsWithStr ".mp4" f) with
      | nil => simp [instaScrape, hsc, hp, hv, hdl, hg]
      | cons vp rest =>
        cases hea : ienv.extractAudio with
        | error e => simp [instaScrape, hsc, hp, hv, hdl, hg, hea]
        | ok u =>
          cases htr : ienv.transcribeResult with
          | error e => simp [instaScrape, hsc, hp, hv, hdl, hg, hea, htr]
          | ok tr =>
            exfalso
            rcases hfail with h | h <;> simp [isError, hea, htr] at h

/-- Witness for C1: a broken STT backend on the YouTube pipeline, at a
concrete download result. -/
theorem tier2_graceful_witness :
    (youtubeScrape ⟨Except.ok ⟨"/tmp/v1.mp4", "T", "D", "A", 9⟩, Except.ok (),
        Except.error "stt down"⟩ "https://youtube.com/watch" true []).1 =
      { captions := "D", description := "D", transcript := ""
        original_url := "https://youtube.com/watch"
        metadata := videoMetadata ⟨"/tmp/v1.mp4", "T", "D", "A", 9⟩, error := none } :=
  (tier2_graceful ⟨Except.ok ⟨"/tmp/v1.mp4", "T", "D", "A", 9⟩, Except.ok (),
      Except.error "stt down"⟩
    ⟨Except.ok ⟨some "c", "u", 1, true⟩, Except.ok [], Except.ok (), Except.ok "t"⟩
    "https://youtube.com/watch" ⟨"/tmp/v1.mp4", "T", "D", "A", 9⟩
    ⟨some "c", "u", 1, true⟩ []).2.1 rfl (Or.inr rfl)

/-! ## Theorems: shortcode extraction -/

/-- C7: splitting the `/`-stripped URL on `/`, a `p` part followed by a
further part yields that part; otherwise a `reel` part followed by a
further part yields that part; with neither marker the extractor yields
the empty string and the Instagram scrape fails as Tier 1 with an
all-empty, error-carrying result. -/
theorem extract_shortcode_spec (url : String) (parts : List String)
    (hp : parts = (pySplitSlash (pyRstripSlash url.data)).map (fun l => String.mk l)) :
    ("p" ∈ parts → ∀ s, parts[parts.indexOf "p" + 1]? = some s →
      extract_shortcode url = s) ∧
    ("p" ∉ parts → "reel" ∈ parts → ∀ s, parts[parts.indexOf "reel" + 1]? = some s →
      extract_shortcode url = s) ∧
    ("p" ∉ parts → "reel" ∉ parts →
      extract_shortcode url = "" ∧
      ∀ (ienv : InstaEnv) (t : Bool) (s0 : List String),
        (instaScrape ienv url t s0).1 =
          failureResult url "Could not extract shortcode from URL") := by
  subst hp
  refine ⟨?_, ?_, ?_⟩
  · intro h s hs
    have hc : ((pySplitSlash (pyRstripSlash url.data)).map
        (fun l => String.mk l)).contains "p" = true := List.elem_eq_true_of_mem h
    have hlt := (List.getElem?_eq_some.mp hs).1
    simp only [extract_shortcode]
    rw [hc]
    simp only [Bool.true_or, eq_self_iff_true, if_true]
    rw [if_pos hlt, List.getD_eq_getElem?_getD, hs]
    rfl
  · intro hnp h s hs
    have hcp : ((pySplitSlash (pyRstripSlash url.data)).map
        (fun l => String.mk l)).contains "p" = false := by
      cases hcc : ((pySplitSlash (pyRstripSlash url.data)).map
          (fun l => String.mk l)).contains "p" with
      | false => rfl
      | true => exact absurd (List.mem_of_elem_eq_true hcc) hnp
    have hc : ((pySplitSlash (pyRstripSlash url.data)).map
        (fun l => String.mk l)).contains "reel" = true := List.elem_eq_true_of_mem h
    have hlt := (List.getElem?_eq_some.mp hs).1
    simp only [extract_shortcode]
    rw [hcp, hc]
    simp only [Bool.false_or, eq_self_iff_true, if_true]
    rw [if_neg Bool.false_ne_true, if_pos hlt, List.getD_eq_getElem?_getD, hs]
    rfl
  · intro hnp hnr
    have hcp : ((pySplitSlash (pyRstripSlash url.data)).map
        (fun l => String.mk l)).contains "p" = false := by
      cases hcc : ((pySplitSlash (pyRstripSlash url.data)).map
          (fun l => String.mk l)).contains "p" with
      | false => rfl
      | true => exact absurd (List.mem_of_elem_eq_true hcc) hnp
    have hcr : ((pySplitSlash (pyRstripSlash url.data)).map
        (fun l => String.mk l)).contains "reel" = false := by
      cases hcc : ((pySplitSlash (pyRstripSlash url.data)).map
          (fun l => String.mk l)).contains "reel" with
      | false => rfl
      | true => exact absurd (List.mem_of_elem_eq_true hcc) hnr
    have h0 : extract_shortcode url = "" := by
      simp only [extract_shortcode]
      rw [hcp, hcr]
      simp
    refine ⟨h0, fun ienv t s0 => ?_⟩
    simp [instaScrape, h0]

/-- Witness for C7: the spec's reel URL yields `ABC123`. -/
theorem extract_shortcode_spec_witness :
    extract_shortcode "https://www.instagram.com/reel/ABC123/" = "ABC123" :=
  (extract_shortcode_spec "https://www.instagram.com/reel/ABC123/" _ rfl).2.1
    (by decide) (by decide) "ABC123" (by decide)

/-! ## Theorems: whole-page text extraction -/

/-- The head of `dropWhile p` never satisfies `p`. -/
theorem dropWhile_head?_not (p : Char → Bool) (l : List Char) :
    ∀ x ∈ (l.dropWhile p).head?, p x = false := by
  induction l with
  | nil => intro x hx; simp at hx
  | cons c t ih =>
    intro x hx
    rw [List.dropWhile_cons] at hx
    by_cases hc : p c
    · rw [if_pos hc] at hx
      exact ih x hx
    · rw [if_neg hc] at hx
      simp at hx
      subst hx
      simpa using hc

/-- `dropWhile p` is the identity when the head fails `p`. -/
theorem dropWhile_eq_self_of_head? (p : Char → Bool) (l : List Char)
    (h : ∀ x ∈ l.head?, p x = false) : l.dropWhile p = l := by
  cases l with
  | nil => rfl
  | cons c t =>
    have hc := h c (by simp)
    rw [List.dropWhile_cons, if_neg (by simp [hc])]

/-- A stripped line does not end in whitespace. -/
theorem pyStrip_reverse_head?_not (l : List Char) :
    ∀ x ∈ (pyStrip l).reverse.head?, isPySpace x = false := by
  intro x hx
  have hrev : (pyStrip l).reverse =
      ((l.dropWhile isPySpace).reverse).dropWhile isPySpace := by
    simp [pyStrip]
  rw [hrev] at hx
  exact dropWhile_head?_not isPySpace _ x hx

/-- A stripped line does not start with whitespace. -/
theorem pyStrip_head?_not (l : List Char) :
    ∀ x ∈ (pyStrip l).head?, isPySpace x = false := by
  intro x hx
  have hsfx : ((l.dropWhile isPySpace).reverse).dropWhile isPySpace <:+
      (l.dropWhile isPySpace).reverse := List.dropWhile_suffix _
  have hpre : pyStrip l <+: l.dropWhile isPySpace := by
    have h := List.reverse_prefix.mpr hsfx
    simpa [pyStrip] using h
  obtain ⟨t, ht⟩ := hpre
  cases hps : pyStrip l with
  | nil => rw [hps] at hx; simp at hx
  | cons c u =>
    rw [hps] at hx
    simp at hx
    subst hx
    have hhead : (l.dropWhile isPySpace).head? = some c := by
      rw [← ht, hps]
      rfl
    exact dropWhile_head?_not isPySpace l c (by rw [hhead]; simp)

/-- Python `strip` is idempotent. -/
theorem pyStrip_idem (l : List Char) : pyStrip (pyStrip l) = pyStrip l := by
  have h1 : (pyStrip l).dropWhile isPySpace = pyStrip l :=
    dropWhile_eq_self_of_head? _ _ (pyStrip_head?_not l)
  have h2 : (pyStrip l).reverse.dropWhile isPySpace = (pyStrip l).reverse :=
    dropWhile_eq_self_of_head? _ _ (pyStrip_reverse_head?_not l)
  show (((pyStrip l).dropWhile isPySpace).reverse.dropWhile isPySpace).reverse = pyStrip l
  rw [h1, h2, List.reverse_reverse]

/-- C8: the whole-page fallback removes script/style/nav/footer/header
subtrees, splits the remaining text into lines, strips each line, drops
the blank ones and rejoins the rest with newlines; consequently every
line of the result is non-blank and carries no surrounding whitespace. -/
theorem extract_text_content_spec (doc : HForest) :
    extract_text_content doc = String.mk (joinNl (cleanedLines doc)) ∧
    ∀ l ∈ cleanedLines doc, l ≠ [] ∧ pyStrip l = l := by
  refine ⟨rfl, ?_⟩
  intro l hl
  obtain ⟨hmem, hne⟩ := List.mem_filter.mp hl
  obtain ⟨x, hx, rfl⟩ := List.mem_map.mp hmem
  refine ⟨?_, pyStrip_idem x⟩
  intro hnil
  rw [hnil] at hne
  simp at hne

/-- Witness for C8: the spec's example body text yields `Hello\nWorld`,
and the theorem applies to its first cleaned line. -/
theorem extract_text_content_spec_witness :
    extract_text_content exampleDoc = "Hello\nWorld" ∧
    "Hello".data ≠ [] ∧ pyStrip "Hello".data = "Hello".data :=
  ⟨by decide,
   (extract_text_content_spec exampleDoc).2 "Hello".data (by decide)⟩

/-! ## Theorems: transcription language handling -/

/-- `dict.get(k, d)` returns the default when `k` is not a key. -/
theorem lookupD_eq_self (m : List (String × String)) (k d : String)
    (h : k ∉ m.map Prod.fst) : lookupD m k d = d := by
  induction m with
  | nil => rfl
  | cons kv rest ih =>
    obtain ⟨k1, v⟩ := kv
    simp only [lookupD]
    rw [if_neg (fun hh => h (by simp [hh]))]
    exact ih (fun hm => h (by simp [hm]))

/-- Counterexample to C6: the Google STT backend call carries the fixed
default language `en-US` when the hint is absent or empty — not an
auto-detect request. -/
theorem google_language_default_counterexample :
    backendLanguageParam TranscriptionProvider.googleStt none = some "en-US" ∧
    backendLanguageParam TranscriptionProvider.googleStt (some "") = some "en-US" ∧
    (some "en-US" : Option String) ≠ none := ⟨rfl, rfl, by decide⟩

/-- C6 (amended): language translation is a pure function of the hint —
an ElevenLabs-native code is a fixed point, a code outside the table
passes through unchanged, an empty/absent hint means auto-detect for the
ElevenLabs and Whisper backends, while Google STT substitutes the fixed
default `en-US`. -/
theorem transcriber_language_spec :
    (∀ c ∈ elevenlabs_language_map.map Prod.snd,
      convert_to_elevenlabs_language (some c) = some c) ∧
    (∀ c : String, c ∉ elevenlabs_language_map.map Prod.fst →
      pyStripStr c ≠ "" →
      convert_to_elevenlabs_language (some c) = some c) ∧
    (backendLanguageParam TranscriptionProvider.elevenlabs none = none ∧
      backendLanguageParam TranscriptionProvider.elevenlabs (some "") = none ∧
      backendLanguageParam TranscriptionProvider.elevenlabs (some "   ") = none) ∧
    (backendLanguageParam TranscriptionProvider.whisper none = none ∧
      backendLanguageParam TranscriptionProvider.whisper (some "") = none) ∧
    backendLanguageParam TranscriptionProvider.googleStt none = some "en-US" := by
  refine ⟨by decide, ?_, ⟨rfl, by decide, by decide⟩, ⟨rfl, by decide⟩, rfl⟩
  intro c hmem hst
  have hc : c ≠ "" := fun h => hst (by rw [h]; rfl)
  simp only [convert_to_elevenlabs_language]
  rw [if_neg (by simp [hc, hst]), lookupD_eq_self _ _ _ hmem]

/-- Witness for C6: a native code is a fixed point; an unknown code passes
through. -/
theorem transcriber_language_spec_witness :
    convert_to_elevenlabs_language (some "eng") = some "eng" ∧
    convert_to_elevenlabs_language (some "nl-NL") = some "nl-NL" :=
  ⟨transcriber_language_spec.1 "eng" (by decide),
   transcriber_language_spec.2.1 "nl-NL" (by decide) (by decide)⟩

/-! ## Theorems: structured recipe synthesis -/

/-- `'\n'.join` over a cons with non-empty tail. -/
theorem joinNlStr_cons (s : String) (l : List String) (h : l ≠ []) :
    joinNlStr (s :: l) = s ++ "\n" ++ joinNlStr l := by
  cases l with
  | nil => exact absurd rfl h
  | cons a t => rfl

/-- `'\n'.join` distributes over appending non-empty line lists. -/
theorem joinNlStr_append (a b : List String) (ha : a ≠ []) (hb : b ≠ []) :
    joinNlStr (a ++ b) = joinNlStr a ++ "\n" ++ joinNlStr b := by
  induction a with
  | nil => exact absurd rfl ha
  | cons x xs ih =>
    cases xs with
    | nil =>
      cases b with
      | nil => exact absurd rfl hb
      | cons y ys => rfl
    | cons z zs =>
      rw [List.cons_append, joinNlStr_cons x ((z :: zs) ++ b) (by simp),
        ih (by simp), joinNlStr_cons x (z :: zs) (by simp)]
      simp [String.append_assoc]

/-- Joining a list of string parts never raises and agrees with
`joinNlStr`. -/
theorem pyJoinNl_map_str (ss : List String) :
    pyJoinNl (ss.map JValue.str) = Except.ok (joinNlStr ss) := by
  induction ss with
  | nil => rfl
  | cons s rest ih =>
    cases rest with
    | nil => rfl
    | cons a t =>
      calc pyJoinNl (List.map JValue.str (s :: a :: t))
          = (pyJoinNl (List.map JValue.str (a :: t))) >>=
              (fun r => Except.ok (s ++ "\n" ++ r)) := rfl
        _ = (Except.ok (joinNlStr (a :: t)) : Except PyExc String) >>=
              (fun r => Except.ok (s ++ "\n" ++ r)) := by rw [ih]
        _ = Except.ok (joinNlStr (s :: a :: t)) := rfl

/-- Numbering a non-empty instruction list yields a non-empty line list. -/
theorem numberInstructions_ne_nil (i : Nat) (insts : List JValue) (h : insts ≠ []) :
    numberInstructions i insts ≠ [] := by
  cases insts with
  | nil => exact absurd rfl h
  | cons a t => simp [numberInstructions]

/-- C5: for a structured-data block declaring type Recipe, the synthesized
description is the INGREDIENTS section (one line per ingredient) followed
by a blank line and the INSTRUCTIONS section with 1-based numbering,
unwrapping each instruction's text field when the instruction is an
object. -/
theorem recipe_description_spec (ings : List String) (insts : List JValue)
    (hi : ings ≠ []) (hn : insts ≠ []) :
    ∃ r : RecipeData,
      extract_recipe_schema [some (recipeScriptObj ings insts)] =
        Except.ok (some r) ∧
      r.description =
        "INGREDIENTS:\n" ++ joinNlStr ings ++ "\n\nINSTRUCTIONS:\n" ++
          joinNlStr (numberInstructions 1 insts) := by
  have hie : (ings.map JValue.str).isEmpty = false := by
    cases ings with
    | nil => exact absurd rfl hi
    | cons a t => rfl
  have hne : insts.isEmpty = false := by
    cases insts with
    | nil => exact absurd rfl hn
    | cons a t => rfl
  have hparts : buildDescriptionParts (JValue.arr (ings.map JValue.str))
      (JValue.arr insts) =
      ("INGREDIENTS:" :: (ings ++ "" :: "INSTRUCTIONS:" ::
        numberInstructions 1 insts)).map JValue.str := by
    simp [buildDescriptionParts, jTruthy, hie, hne]
  have hDesc : pyJoinNl (buildDescriptionParts (JValue.arr (ings.map JValue.str))
      (JValue.arr insts)) =
      Except.ok (joinNlStr ("INGREDIENTS:" :: (ings ++ "" :: "INSTRUCTIONS:" ::
        numberInstructions 1 insts))) := by
    rw [hparts, pyJoinNl_map_str]
  have hnum := numberInstructions_ne_nil 1 insts hn
  have hJ : joinNlStr ("INGREDIENTS:" :: (ings ++ "" :: "INSTRUCTIONS:" ::
      numberInstructions 1 insts)) =
      "INGREDIENTS:\n" ++ joinNlStr ings ++ "\n\nINSTRUCTIONS:\n" ++
        joinNlStr (numberInstructions 1 insts) := by
    rw [joinNlStr_cons _ _ (by simp),
        joinNlStr_append ings _ hi (by simp),
        joinNlStr_cons _ _ (by simp),
        joinNlStr_cons _ _ hnum]
    have e0 : ("" : String).data = ([] : List Char) := rfl
    have e1 : ("INGREDIENTS:\n" : String).data =
        "INGREDIENTS:".data ++ "\n".data := rfl
    have e2 : ("\n\nINSTRUCTIONS:\n" : String).data =
        "\n".data ++ "\n".data ++ "INSTRUCTIONS:".data ++ "\n".data := rfl
    ext1
    simp [String.data_append, List.append_assoc, e0, e1, e2]
  have hps : processScript (recipeScriptObj ings insts) =
      (pyJoinNl (buildDescriptionParts (JValue.arr (ings.map JValue.str))
        (JValue.arr insts))) >>=
        (fun description => Except.ok (some
          { title := JValue.str "", description := description
            author := JValue.str "", prep_time := JValue.str ""
            cook_time := JValue.str "", servings := "" })) := rfl
  refine ⟨{ title := JValue.str ""
            description := "INGREDIENTS:\n" ++ joinNlStr ings ++
              "\n\nINSTRUCTIONS:\n" ++ joinNlStr (numberInstructions 1 insts)
            author := JValue.str "", prep_time := JValue.str ""
            cook_time := JValue.str "", servings := "" }, ?_, rfl⟩
  simp only [extract_recipe_schema]
  rw [hps, hDesc, hJ]
  rfl

/-- Witness for C5: the spec's flour/sugar, Mix/Bake recipe yields the
exact synthesized description string. -/
theorem recipe_description_spec_witness :
    ∃ r : RecipeData,
      extract_recipe_schema [some (recipeScriptObj ["flour", "sugar"]
        [JValue.obj [("text", JValue.str "Mix")],
         JValue.obj [("text", JValue.str "Bake")]])] = Except.ok (some r) ∧
      r.description = "INGREDIENTS:\nflour\nsugar\n\nINSTRUCTIONS:\n1. Mix\n2. Bake" := by
  obtain ⟨r, h1, h2⟩ := recipe_description_spec ["flour", "sugar"]
    [JValue.obj [("text", JValue.str "Mix")], JValue.obj [("text", JValue.str "Bake")]]
    (by decide) (by simp)
  refine ⟨r, h1, ?_⟩
  rw [h2]
  rfl

/-! ## Theorems: temporary-file cleanup -/

/-- `cleanup_files` only ever removes files. -/
theorem mem_of_mem_cleanup_files (paths : List (Option String)) (s : List String)
    (f : String) (h : f ∈ cleanup_files s paths) : f ∈ s := by
  induction paths generalizing s with
  | nil => exact h
  | cons p rest ih =>
    cases p with
    | none => exact ih s h
    | some g =>
      have h1 : f ∈ cleanup_files (if g = "" then s else deleteFile s g) rest := h
      by_cases hg : g = ""
      · rw [if_pos hg] at h1
        exact ih _ h1
      · rw [if_neg hg] at h1
        exact (List.mem_filter.mp (ih _ h1)).1

/-- A deleted file name is gone. -/
theorem not_mem_deleteFile (s : List String) (a : String) : a ∉ deleteFile s a := by
  intro h
  have h2 := (List.mem_filter.mp h).2
  simp at h2

/-- Splitting a two-path cleanup at its second (non-empty) path. -/
theorem cleanup_files_pair (s : List String) (x : Option String) (ap : String)
    (hap : ap ≠ "") :
    cleanup_files s [x, some ap] = deleteFile (cleanup_files s [x]) ap := by
  show (if ap = "" then cleanup_files s [x] else deleteFile (cleanup_files s [x]) ap) = _
  rw [if_neg hap]

/-- The first (non-empty) cleaned path is gone afterwards. -/
theorem not_mem_cleanup_fst (X : List String) (a : String) (y : Option String)
    (ha : a ≠ "") : a ∉ cleanup_files X [some a, y] := by
  intro h
  have e : cleanup_files X [some a, y] = cleanup_files (deleteFile X a) [y] := by
    show cleanup_files (if a = "" then X else deleteFile X a) [y] = _
    rw [if_neg ha]
  rw [e] at h
  exact not_mem_deleteFile X a (mem_of_mem_cleanup_files [y] _ a h)

/-- The second (non-empty) cleaned path is gone afterwards. -/
theorem not_mem_cleanup_snd (X : List String) (y : Option String) (a : String)
    (ha : a ≠ "") : a ∉ cleanup_files X [y, some a] := by
  rw [cleanup_files_pair X y a ha]
  exact not_mem_deleteFile _ _

/-- The audio path ends in `.mp3`, so it is never the empty string. -/
theorem withSuffixMp3_ne_empty (p : String) : withSuffixMp3 p ≠ "" := by
  intro h
  have h2 := congrArg String.data h
  simp [withSuffixMp3] at h2

/-- Members of the shortcode sweep come from before it and are not
shortcode-prefixed. -/
theorem mem_sweepShortcode (sc : String) (s : List String) (f : String)
    (h : f ∈ sweepShortcode sc s) : f ∈ s ∧ isPrefixOfStr sc f = false := by
  have h1 := List.mem_filter.mp h
  refine ⟨h1.1, ?_⟩
  have h2 := h1.2
  simpa using h2

/-- A name formed by appending to the shortcode is shortcode-prefixed. -/
theorem isPrefixOfStr_append (sc suf : String) : isPrefixOfStr sc (sc ++ suf) = true := by
  simp only [isPrefixOfStr, String.data_append]
  exact List.isPrefixOf_iff_prefix.mpr (List.prefix_append _ _)

/-- Core containment argument for a video pipeline's `finally` block:
whatever survives `cleanup_files` over the state extended with the video
(and possibly audio) file was already there before the call. -/
theorem video_cleanup_sub (s0 : List String) (vp ap : String) (hvp : vp ≠ "")
    (hap : ap ≠ "") :
    (∀ f ∈ cleanup_files (s0 ++ [vp]) [some vp, none], f ∈ s0) ∧
    (∀ f ∈ cleanup_files ((s0 ++ [vp]) ++ [ap]) [some vp, some ap], f ∈ s0) := by
  constructor
  · intro f hf
    have hf1 := mem_of_mem_cleanup_files _ _ _ hf
    have hfvp : f ≠ vp := fun he => not_mem_cleanup_fst _ _ _ hvp (he ▸ hf)
    rcases List.mem_append.mp hf1 with h | h
    · exact h
    · simp at h
      exact absurd h hfvp
  · intro f hf
    have hf1 := mem_of_mem_cleanup_files _ _ _ hf
    have hfvp : f ≠ vp := fun he => not_mem_cleanup_fst _ _ _ hvp (he ▸ hf)
    have hfap : f ≠ ap := fun he => not_mem_cleanup_snd _ _ _ hap (he ▸ hf)
    rcases List.mem_append.mp hf1 with h | h
    · rcases List.mem_append.mp h with h2 | h2
      · exact h2
      · simp at h2
        exact absurd h2 hfvp
    · simp at h
      exact absurd h hfap

/-- Core containment argument for the Instagram `finally` block: after
deleting the tracked paths and sweeping the shortcode prefix, everything
left was present before the call. -/
theorem insta_final_sub (s0 created extra X : List String) (sc vp : String)
    (y : Option String) (hX : X = (s0 ++ created) ++ extra)
    (hcreated : ∀ g ∈ created, isPrefixOfStr sc g = true)
    (hextra : ∀ g ∈ extra, g ∉ cleanup_files X [some vp, y]) :
    ∀ f ∈ sweepShortcode sc (cleanup_files X [some vp, y]), f ∈ s0 := by
  intro f hf
  obtain ⟨hf1, hf2⟩ := mem_sweepShortcode _ _ _ hf
  have hf3 := mem_of_mem_cleanup_files _ _ _ hf1
  rw [hX] at hf3
  rcases List.mem_append.mp hf3 with h | h
  · rcases List.mem_append.mp h with h2 | h2
    · exact h2
    · rw [hcreated f h2] at hf2
      cases hf2
  · exact absurd hf1 (hextra f h)

/-- Counterexample to C9: on the successful exit path of a non-video post,
the shortcode-prefix sweep does not run, so a shortcode-prefixed file in
the working directory survives the call. -/
theorem insta_sweep_counterexample :
    extract_shortcode "https://www.instagram.com/p/ABC123" = "ABC123" ∧
    isPrefixOfStr "ABC123" "ABC123-old.json" = true ∧
    (instaScrape ⟨Except.ok ⟨some "hi", "user", 3, false⟩, Except.ok [], Except.ok (),
        Except.ok "txt"⟩ "https://www.instagram.com/p/ABC123" true
      ["ABC123-old.json"]).2 = ["ABC123-old.json"] ∧
    (instaScrape ⟨Except.ok ⟨some "hi", "user", 3, false⟩, Except.ok [], Except.ok (),
        Except.ok "txt"⟩ "https://www.instagram.com/p/ABC123" true
      ["ABC123-old.json"]).1.error = none :=
  ⟨rfl, rfl, rfl, rfl⟩

/-- C9 (amended): on every exit path of every video pipeline the tracked
video and audio files are deleted and no file created during the call
survives; the social-post pipeline's shortcode-prefix sweep runs on every
exit path on which a video path was set (video posts after a successful
fetch), and on those exits no shortcode-prefixed file survives at all. -/
theorem cleanup_spec (env : VideoEnv) (ienv : InstaEnv) (url : String) (t : Bool)
    (s0 : List String) :
    (∀ m, env.download = Except.error m →
      (tiktokScrape env url t s0).2 = s0 ∧ (youtubeScrape env url t s0).2 = s0) ∧
    (∀ d, env.download = Except.ok d → d.video_path ≠ "" →
      (∀ f ∈ (tiktokScrape env url t s0).2, f ∈ s0) ∧
      (∀ f ∈ (youtubeScrape env url t s0).2, f ∈ s0) ∧
      d.video_path ∉ (tiktokScrape env url t s0).2 ∧
      d.video_path ∉ (youtubeScrape env url t s0).2) ∧
    (∀ f ∈ (instaScrape ienv url t s0).2, f ∈ s0) ∧
    (∀ post, ienv.fetchPost = Except.ok post → extract_shortcode url ≠ "" →
      post.is_video = true →
      ∀ f ∈ (instaScrape ienv url t s0).2,
        isPrefixOfStr (extract_shortcode url) f = false) := by
  refine ⟨?_, ?_, ?_, ?_⟩
  · intro m hd
    constructor <;> simp [tiktokScrape, youtubeScrape, hd]
  · intro d hd hvp
    have hap := withSuffixMp3_ne_empty d.video_path
    have hsub := video_cleanup_sub s0 d.video_path (withSuffixMp3 d.video_path) hvp hap
    have htik : (tiktokScrape env url t s0).2 =
        cleanup_files (s0 ++ [d.video_path]) [some d.video_path, none] ∨
        (tiktokScrape env url t s0).2 =
        cleanup_files ((s0 ++ [d.video_path]) ++ [withSuffixMp3 d.video_path])
          [some d.video_path, some (withSuffixMp3 d.video_path)] := by
      cases t with
      | false => left; simp [tiktokScrape, hd]
      | true =>
        cases hea : env.extractAudio with
        | error e => left; simp [tiktokScrape, hd, hea]
        | ok u =>
          cases htr : env.transcribeResult with
          | error e => right; simp [tiktokScrape, hd, hea, htr]
          | ok tr => right; simp [tiktokScrape, hd, hea, htr]
    have hyou : (youtubeScrape env url t s0).2 =
        cleanup_files (s0 ++ [d.video_path]) [some d.video_path, none] ∨
        (youtubeScrape env url t s0).2 =
        cleanup_files ((s0 ++ [d.video_path]) ++ [withSuffixMp3 d.video_path])
          [some d.video_path, some (withSuffixMp3 d.video_path)] := by
      cases t with
      | false => left; simp [youtubeScrape, hd]
      | true =>
        cases hea : env.extractAudio with
        | error e => left; simp [youtubeScrape, hd, hea]
        | ok u =>
          cases htr : env.transcribeResult with
          | error e => right; simp [youtubeScrape, hd, hea, htr]
          | ok tr => right; simp [youtubeScrape, hd, hea, htr]
    refine ⟨?_, ?_, ?_, ?_⟩
    · rcases htik with he | he <;> rw [he]
      · exact hsub.1
      · exact hsub.2
    · rcases hyou with he | he <;> rw [he]
      · exact hsub.1
      · exact hsub.2
    · rcases htik with he | he <;> rw [he] <;> exact not_mem_cleanup_fst _ _ _ hvp
    · rcases hyou with he | he <;> rw [he] <;> exact not_mem_cleanup_fst _ _ _ hvp
  · by_cases hsc : extract_shortcode url = ""
    · have he : (instaScrape ienv url t s0).2 = s0 := by simp [instaScrape, hsc]
      rw [he]
      exact fun f hf => hf
    · cases hp : ienv.fetchPost with
      | error e =>
        have he : (instaScrape ienv url t s0).2 = s0 := by simp [instaScrape, hsc, hp]
        rw [he]
        exact fun f hf => hf
      | ok post =>
        cases hv : post.is_video with
        | false =>
          have he : (instaScrape ienv url t s0).2 = s0 := by
            simp [instaScrape, hsc, hp, hv]
          rw [he]
          exact fun f hf => hf
        | true =>
          cases hdl : ienv.downloadPost with
          | error e =>
            have he : (instaScrape ienv url t s0).2 =
                sweepShortcode (extract_shortcode url)
                  (cleanup_files s0 [some (extract_shortcode url ++ ".mp4"), none]) := by
              simp [instaScrape, hsc, hp, hv, hdl]
            rw [he]
            exact insta_final_sub s0 [] [] s0 (extract_shortcode url) _ none (by simp)
              (fun g hg => absurd hg (List.not_mem_nil g))
              (fun g hg => absurd hg (List.not_mem_nil g))
          | ok suffixes =>
            cases hg : (s0 ++ suffixes.map (fun suf => extract_shortcode url ++ suf)).filter
                (fun f => isPrefixOfStr (extract_shortcode url) f &&
                  endsWithStr ".mp4" f) with
            | nil =>
              have he : (instaScrape ienv url t s0).2 =
                  sweepShortcode (extract_shortcode url)
                    (cleanup_files
                      (s0 ++ suffixes.map (fun suf => extract_shortcode url ++ suf))
                      [some (extract_shortcode url ++ ".mp4"), none]) := by
                simp [instaScrape, hsc, hp, hv, hdl, hg]
              rw [he]
              exact insta_final_sub s0
                (suffixes.map (fun suf => extract_shortcode url ++ suf)) [] _
                (extract_shortcode url) _ none (by simp)
                (fun g hg2 => by
                  obtain ⟨suf, hsuf, hgeq⟩ := List.mem_map.mp hg2
                  rw [← hgeq]
                  exact isPrefixOfStr_append _ _)
                (fun g hg2 => absurd hg2 (List.not_mem_nil g))
            | cons vp rest =>
              have hshape : (instaScrape ienv url t s0).2 =
                  sweepShortcode (extract_shortcode url)
                    (cleanup_files
                      (s0 ++ suffixes.map (fun suf => extract_shortcode url ++ suf))
                      [some vp, none]) ∨
                  (instaScrape ienv url t s0).2 =
                  sweepShortcode (extract_shortcode url)
                    (cleanup_files
                      ((s0 ++ suffixes.map (fun suf => extract_shortcode url ++ suf)) ++
                        [withSuffixMp3 vp])
                      [some vp, some (withSuffixMp3 vp)]) := by
                cases t with
                | false => left; simp [instaScrape, hsc, hp, hv, hdl, hg]
                | true =>
                  cases hea : ienv.extractAudio with
                  | error e => left; simp [instaScrape, hsc, hp, hv, hdl, hg, hea]
                  | ok u =>
                    cases htr : ienv.transcribeResult with
                    | error e => right; simp [instaScrape, hsc, hp, hv, hdl, hg, hea, htr]
                    | ok tr => right; simp [instaScrape, hsc, hp, hv, hdl, hg, hea, htr]
              have hcreated : ∀ g ∈ suffixes.map (fun suf => extract_shortcode url ++ suf),
                  isPrefixOfStr (extract_shortcode url) g = true := by
                intro g hg2
                obtain ⟨suf, hsuf, hgeq⟩ := List.mem_map.mp hg2
                rw [← hgeq]
                exact isPrefixOfStr_append _ _
              rcases hshape with he | he <;> rw [he]
              · exact insta_final_sub s0
                  (suffixes.map (fun suf => extract_shortcode url ++ suf)) [] _
                  (extract_shortcode url) vp none (by simp) hcreated
                  (fun g hg2 => absurd hg2 (List.not_mem_nil g))
              · exact insta_final_sub s0
                  (suffixes.map (fun suf => extract_shortcode url ++ suf))
                  [withSuffixMp3 vp] _ (extract_shortcode url) vp
                  (some (withSuffixMp3 vp)) rfl hcreated
                  (fun g hg2 => by
                    have hgap : g = withSuffixMp3 vp := by simpa using hg2
                    rw [hgap]
                    exact not_mem_cleanup_snd _ _ _ (withSuffixMp3_ne_empty vp))
  · intro post hp hsc hv
    cases hdl : ienv.downloadPost with
    | error e =>
      have he : (instaScrape ienv url t s0).2 =
          sweepShortcode (extract_shortcode url)
            (cleanup_files s0 [some (extract_shortcode url ++ ".mp4"), none]) := by
        simp [instaScrape, hsc, hp, hv, hdl]
      rw [he]
      exact fun f hf => (mem_sweepShortcode _ _ _ hf).2
    | ok suffixes =>
      cases hg : (s0 ++ suffixes.map (fun suf => extract_shortcode url ++ suf)).filter
          (fun f => isPrefixOfStr (extract_shortcode url) f && endsWithStr ".mp4" f) with
      | nil =>
        have he : (instaScrape ienv url t s0).2 =
            sweepShortcode (extract_shortcode url)
              (cleanup_files (s0 ++ suffixes.map (fun suf => extract_shortcode url ++ suf))
                [some (extract_shortcode url ++ ".mp4"), none]) := by
          simp [instaScrape, hsc, hp, hv, hdl, hg]
        rw [he]
        exact fun f hf => (mem_sweepShortcode _ _ _ hf).2
      | cons vp rest =>
        have hshape : ∃ X y, (instaScrape ienv url t s0).2 =
            sweepShortcode (extract_shortcode url) (cleanup_files X [some vp, y]) := by
          cases t with
          | false =>
            exact ⟨s0 ++ suffixes.map (fun suf => extract_shortcode url ++ suf), none,
              by simp [instaScrape, hsc, hp, hv, hdl, hg]⟩
          | true =>
            cases hea : ienv.extractAudio with
            | error e =>
              exact ⟨s0 ++ suffixes.map (fun suf => extract_shortcode url ++ suf), none,
                by simp [instaScrape, hsc, hp, hv, hdl, hg, hea]⟩
            | ok u =>
              cases htr : ienv.transcribeResult with
              | error e =>
                exact ⟨(s0 ++ suffixes.map (fun suf => extract_shortcode url ++ suf)) ++
                    [withSuffixMp3 vp], some (withSuffixMp3 vp),
                  by simp [instaScrape, hsc, hp, hv, hdl, hg, hea, htr]⟩
              | ok tr =>
                exact ⟨(s0 ++ suffixes.map (fun suf => extract_shortcode url ++ suf)) ++
                    [withSuffixMp3 vp], some (withSuffixMp3 vp),
                  by simp [instaScrape, hsc, hp, hv, hdl, hg, hea, htr]⟩
        obtain ⟨X, y, he⟩ := hshape
        rw [he]
        exact fun f hf => (mem_sweepShortcode _ _ _ hf).2

/-- Witness for C9's amended theorem: a pre-existing unrelated file
survives a TikTok scrape with a failing transcription, and an Instagram
video scrape leaves only non-shortcode-prefixed files behind. -/
theorem cleanup_spec_witness :
    "keep.txt" ∈ (["keep.txt"] : List String) ∧
    isPrefixOfStr (extract_shortcode "https://www.instagram.com/p/ABC123")
      "zzz.txt" = false :=
  ⟨((cleanup_spec ⟨Except.ok ⟨"/tmp/v.mp4", "T", "D", "A", 9⟩, Except.ok (),
        Except.error "stt down"⟩
      ⟨Except.ok ⟨some "c", "u", 1, true⟩, Except.ok ["_x.mp4"], Except.ok (),
        Except.error "stt down"⟩
      "https://www.tiktok.com/@a/video/1" true ["keep.txt"]).2.1
      ⟨"/tmp/v.mp4", "T", "D", "A", 9⟩ rfl (by decide)).1 "keep.txt" (by decide),
   (cleanup_spec ⟨Except.ok ⟨"/tmp/v.mp4", "T", "D", "A", 9⟩, Except.ok (),
        Except.error "stt down"⟩
      ⟨Except.ok ⟨some "c", "u", 1, true⟩, Except.ok ["_x.mp4"], Except.ok (),
        Except.error "stt down"⟩
      "https://www.instagram.com/p/ABC123" true ["zzz.txt"]).2.2.2
      ⟨some "c", "u", 1, true⟩ rfl (by decide) rfl "zzz.txt" (by decide)⟩

end ReceiptBot
